import Mathlib

set_option maxRecDepth 16384

/-!
Verification development for the tender-intelligence pipeline of the
rfp-project repository.  The definitions below are a shallow embedding of
the TypeScript source:

* a model of JavaScript `JSON.parse` over a `Json` value type;
* the decoder helpers `cleanAndParseJSON` (src/app/api/tenders/analyze/route.ts),
  `cleanJsonResponse` and `safeJsonParse` (src/app/api/proposals/generate/route.ts)
  and the NvI response cleaning (same analyze file, second route);
* the scoring / priority-tier functions (ProposalView.tsx and the NvI export view);
* the retrieval coordinator `findRelevantCapabilities` (src/lib/embeddings.ts);
* state-passing models of the three API route handlers (tender analysis,
  NvI question generation, proposal generation) with the external services
  (Supabase, OpenAI, Pinecone) supplied as oracle values, and an effect
  trace recording which backend calls were made.

Strings are modelled as `List Char` at the scanning level; machine floats
never enter the claims (scores are integers in the source), so JSON numbers
keep their literal text.
-/

/-- JavaScript value produced by `JSON.parse`.  Numbers keep their validated
literal text: no claim in scope compares distinct numeric spellings, and this
avoids floating-point arithmetic.  Objects are field lists in insertion order;
for duplicate keys JavaScript keeps the last value, which `getField` mirrors
by scanning from the right. -/
inductive Json where
  | null : Json
  | bool : Bool → Json
  | num : String → Json
  | str : String → Json
  | arr : List Json → Json
  | obj : List (String × Json) → Json

/-- Left brace character, written via its code point. -/
def lbrace : Char := Char.ofNat 123

/-- Right brace character, written via its code point. -/
def rbrace : Char := Char.ofNat 125

/-- Backtick character, written via its code point. -/
def btick : Char := Char.ofNat 96

/-- Single-quote character, written via its code point. -/
def squote : Char := Char.ofNat 39

/-- Whitespace of the JSON grammar (RFC 8259: space, tab, line feed,
carriage return); used by the strict-parse model. -/
def isJsonWs (c : Char) : Bool :=
  c = ' ' || c = '\t' || c = '\n' || c = '\r'

/-- Skip JSON-grammar whitespace. -/
def skipWs (l : List Char) : List Char :=
  l.dropWhile isJsonWs

/-- Hexadecimal digit value. -/
def hexVal (c : Char) : Option Nat :=
  if '0' ≤ c ∧ c ≤ '9' then some (c.toNat - '0'.toNat)
  else if 'a' ≤ c ∧ c ≤ 'f' then some (c.toNat - 'a'.toNat + 10)
  else if 'A' ≤ c ∧ c ≤ 'F' then some (c.toNat - 'A'.toNat + 10)
  else none

/-- Body of a JSON string literal, after the opening quote: returns the
decoded string and the remainder after the closing quote.  Strict JSON:
raw control characters below 0x20 are rejected, escapes are the RFC 8259
set.  A `\u` escape outside the valid `Char` range decodes to `Char.ofNat`'s
default, an edge not exercised by any claim. -/
def parseStrBody : List Char → Option (String × List Char)
  | [] => none
  | c :: r =>
    if c = '\"' then some ("", r)
    else if c = '\\' then
      match r with
      | '\"' :: r2 => (parseStrBody r2).map (fun p => (String.mk ('\"' :: p.1.data), p.2))
      | '\\' :: r2 => (parseStrBody r2).map (fun p => (String.mk ('\\' :: p.1.data), p.2))
      | '/' :: r2 => (parseStrBody r2).map (fun p => (String.mk ('/' :: p.1.data), p.2))
      | 'b' :: r2 => (parseStrBody r2).map (fun p => (String.mk (Char.ofNat 8 :: p.1.data), p.2))
      | 'f' :: r2 => (parseStrBody r2).map (fun p => (String.mk (Char.ofNat 12 :: p.1.data), p.2))
      | 'n' :: r2 => (parseStrBody r2).map (fun p => (String.mk ('\n' :: p.1.data), p.2))
      | 'r' :: r2 => (parseStrBody r2).map (fun p => (String.mk ('\r' :: p.1.data), p.2))
      | 't' :: r2 => (parseStrBody r2).map (fun p => (String.mk ('\t' :: p.1.data), p.2))
      | 'u' :: h1 :: h2 :: h3 :: h4 :: r5 =>
        match hexVal h1, hexVal h2, hexVal h3, hexVal h4 with
        | some a, some b, some c3, some d =>
          (parseStrBody r5).map
            (fun p => (String.mk (Char.ofNat (((a * 16 + b) * 16 + c3) * 16 + d) :: p.1.data), p.2))
        | _, _, _, _ => none
      | _ => none
    else if c.toNat < 32 then none
    else (parseStrBody r).map (fun p => (String.mk (c :: p.1.data), p.2))

/-- Digit run helper for the number grammar. -/
def digitSpan (l : List Char) : List Char × List Char :=
  (l.takeWhile Char.isDigit, l.dropWhile Char.isDigit)

/-- JSON number literal: `-?(0|[1-9][0-9]*)(\.[0-9]+)?([eE][+-]?[0-9]+)?`.
Returns the literal text and the rest. -/
def parseNumLit (l : List Char) : Option (String × List Char) :=
  let (sign, l1) := match l with
    | '-' :: r => (['-'], r)
    | _ => ([], l)
  match l1 with
  | [] => none
  | c :: r =>
    if c = '0' then numFrac (sign ++ [c]) r
    else if c.isDigit then
      let (ds, r2) := digitSpan r
      numFrac (sign ++ c :: ds) r2
    else none
where
  /-- Optional fraction then optional exponent. -/
  numFrac (acc : List Char) (l : List Char) : Option (String × List Char) :=
    match l with
    | '.' :: r =>
      let (ds, r2) := digitSpan r
      if ds.isEmpty then none else numExp (acc ++ '.' :: ds) r2
    | _ => numExp acc l
  /-- Optional exponent part. -/
  numExp (acc : List Char) (l : List Char) : Option (String × List Char) :=
    match l with
    | c :: r =>
      if c = 'e' ∨ c = 'E' then
        let (sgn, r1) := match r with
          | '+' :: r2 => (['+'], r2)
          | '-' :: r2 => (['-'], r2)
          | _ => ([], r)
        let (ds, r2) := digitSpan r1
        if ds.isEmpty then none else some (String.mk (acc ++ c :: sgn ++ ds), r2)
      else some (String.mk acc, l)
    | [] => some (String.mk acc, [])

mutual

/-- One JSON value (leading whitespace allowed), fuel-bounded recursive
descent mirroring the `JSON.parse` grammar. -/
def parseVal : Nat → List Char → Option (Json × List Char)
  | 0, _ => none
  | Nat.succ fuel, l =>
    match skipWs l with
    | [] => none
    | 'n' :: 'u' :: 'l' :: 'l' :: r => some (.null, r)
    | 't' :: 'r' :: 'u' :: 'e' :: r => some (.bool true, r)
    | 'f' :: 'a' :: 'l' :: 's' :: 'e' :: r => some (.bool false, r)
    | '\"' :: r => (parseStrBody r).map (fun p => (.str p.1, p.2))
    | '[' :: r =>
      (match skipWs r with
       | ']' :: r2 => some (.arr [], r2)
       | r2 => (parseItems fuel r2).map (fun p => (.arr p.1, p.2)))
    | c :: r =>
      if c = lbrace then
        (match skipWs r with
         | c2 :: r2 =>
           if c2 = rbrace then some (.obj [], r2)
           else (parseMembers fuel (c2 :: r2)).map (fun p => (.obj p.1, p.2))
         | [] => none)
      else if c = '-' ∨ c.isDigit then
        (parseNumLit (c :: r)).map (fun p => (.num p.1, p.2))
      else none

/-- Array elements: `value (ws , ws value)* ws ]`. -/
def parseItems : Nat → List Char → Option (List Json × List Char)
  | 0, _ => none
  | Nat.succ fuel, l => do
    let (v, r) ← parseVal fuel l
    match skipWs r with
    | ',' :: r2 => do
      let (vs, r3) ← parseItems fuel r2
      pure (v :: vs, r3)
    | ']' :: r2 => pure ([v], r2)
    | _ => none

/-- Object members: `ws "key" ws : value (ws , members | ws rbrace)`. -/
def parseMembers : Nat → List Char → Option (List (String × Json) × List Char)
  | 0, _ => none
  | Nat.succ fuel, l =>
    match skipWs l with
    | '\"' :: r => do
      let (k, r1) ← parseStrBody r
      match skipWs r1 with
      | ':' :: r2 => do
        let (v, r3) ← parseVal fuel r2
        match skipWs r3 with
        | ',' :: r4 => do
          let (ms, r5) ← parseMembers fuel r4
          pure ((k, v) :: ms, r5)
        | c :: r4 =>
          if c = rbrace then pure ([(k, v)], r4) else none
        | [] => none
      | _ => none
    | _ => none

end

/-- Model of JavaScript `JSON.parse`: `none` when `JSON.parse` would throw a
`SyntaxError`.  The fuel `2 * length + 8` dominates nesting depth plus element
count, each of which consumes input characters. -/
def jsonParse (s : String) : Option Json :=
  match parseVal (2 * s.data.length + 8) s.data with
  | some (v, r) => if (skipWs r).isEmpty then some v else none
  | none => none

/-- Field read on a decoded value, modelling JavaScript `x.k`: `null` stands
for `undefined` (absent field or non-object receiver).  Scans from the right
so that duplicate keys resolve to the last value, as `JSON.parse` does. -/
def getField (j : Json) (k : String) : Json :=
  match j with
  | .obj fs =>
    match (fs.filter (fun p => p.1 = k)).getLast? with
    | some p => p.2
    | none => .null
  | _ => .null

/-- JavaScript truthiness on decoded values (`undefined`/`null`, `false`,
`""` and numeric zero are falsy; every array and object is truthy).
Fractional spellings of zero are out of scope for the claims. -/
def truthy (j : Json) : Bool :=
  match j with
  | .null => false
  | .bool b => b
  | .num lit => ¬(lit = "0" ∨ lit = "-0")
  | .str s => s ≠ ""
  | .arr _ => true
  | .obj _ => true

/-- JavaScript `a || b` on decoded values. -/
def jsOr (a b : Json) : Json := if truthy a then a else b


/-- Character class removed by the narrow control-character regex
`[\x00-\x08\x0B\x0C\x0E-\x1F\x7F-\x9F]` used in `cleanJsonResponse`,
`cleanAndParseJSON`'s sibling in the NvI generator, and the analyze route. -/
def isCtrlNarrow (c : Char) : Bool :=
  c.toNat ≤ 8 || c.toNat = 11 || c.toNat = 12 ||
  (14 ≤ c.toNat && c.toNat ≤ 31) || (127 ≤ c.toNat && c.toNat ≤ 159)

/-- Character class of the aggressive fallback regex `[\x00-\x1F\x7F-\x9F]`. -/
def isCtrlWide (c : Char) : Bool :=
  c.toNat ≤ 31 || (127 ≤ c.toNat && c.toNat ≤ 159)

/-- JavaScript `\s` (and `String.prototype.trim`) whitespace.  The common
members are listed; exotic Unicode space separators (ogham, en/em spaces)
are omitted — no input in scope contains them. -/
def isJsWs (c : Char) : Bool :=
  c = ' ' || c = '\t' || c = '\n' || c = '\r' ||
  c.toNat = 11 || c.toNat = 12 || c.toNat = 160 ||
  c.toNat = 8232 || c.toNat = 8233 || c.toNat = 65279

/-- JavaScript `String.prototype.trim`. -/
def trimJs (l : List Char) : List Char :=
  ((l.dropWhile isJsWs).reverse.dropWhile isJsWs).reverse

/-- Markdown fence opener with language tag. -/
def fenceJson : List Char := [btick, btick, btick, 'j', 's', 'o', 'n']

/-- Bare markdown fence. -/
def fence3 : List Char := [btick, btick, btick]

/-- Model of `.replace(/^```json\s*/, '')`. -/
def stripFenceStartJson (l : List Char) : List Char :=
  if fenceJson.isPrefixOf l then (l.drop 7).dropWhile isJsWs else l

/-- Model of `.replace(/^```\s*/, '')`. -/
def stripFenceStart3 (l : List Char) : List Char :=
  if fence3.isPrefixOf l then (l.drop 3).dropWhile isJsWs else l

/-- Model of `.replace(/\s*```$/, '')`: strips a trailing fence and the
whitespace before it; no-op when the string does not end in a fence. -/
def stripFenceEnd (l : List Char) : List Char :=
  let r := l.reverse
  if fence3.isPrefixOf r then ((r.drop 3).dropWhile isJsWs).reverse else l

/-- The fence-stripping prologue shared verbatim by `cleanJsonResponse`,
`cleanAndParseJSON` and the NvI generator: `startsWith`-guarded removal of
a leading fence (with or without the `json` tag) and a trailing fence. -/
def stripFences (l : List Char) : List Char :=
  if fenceJson.isPrefixOf l then stripFenceEnd (stripFenceStartJson l)
  else if fence3.isPrefixOf l then stripFenceEnd (stripFenceStart3 l)
  else l

/-- Model of the lookaround replace
`(?<="[^"]*?)X(?=[^"]*?")` → `\X`: the lookbehind holds exactly when some
quote occurs before the match, the lookahead exactly when some quote occurs
after it (both in the original subject, as JavaScript matches). `seenQ`
tracks whether a quote occurred in the consumed prefix. -/
def escBetweenQuotes (target e : Char) : Bool → List Char → List Char
  | _, [] => []
  | seenQ, c :: r =>
    if c = target && seenQ && r.contains '\"' then
      '\\' :: e :: escBetweenQuotes target e seenQ r
    else
      c :: escBetweenQuotes target e (seenQ || c = '\"') r

/-- Lookahead `[^"]*"[^"]*:` of the `\n(?![^"]*"[^"]*:)` replaces: the
suffix contains a quote, and a colon follows that first quote before the
next quote. -/
def keyAhead (l : List Char) : Bool :=
  match l.dropWhile (fun c => c ≠ '\"') with
  | _ :: r => (r.takeWhile (fun c => c ≠ '\"')).contains ':'
  | [] => false

/-- Model of `.replace(/X(?![^"]*"[^"]*:)/g, ' ')` for a single character X. -/
def chKeyToSpace (target : Char) : List Char → List Char
  | [] => []
  | c :: r =>
    if c = target && !keyAhead r then ' ' :: chKeyToSpace target r
    else c :: chKeyToSpace target r

/-- Model of `.replace(/\s+/g, ' ')`: every maximal whitespace run becomes a
single space. -/
def collapseWs : List Char → List Char
  | [] => []
  | [c] => if isJsWs c then [' '] else [c]
  | a :: b :: r =>
    if isJsWs a && isJsWs b then collapseWs (b :: r)
    else if isJsWs a then ' ' :: collapseWs (b :: r)
    else a :: collapseWs (b :: r)

/-- Aggressive fallback chain of `cleanJsonResponse` (taken when the primary
chain does not yield a string starting with a brace): re-trim the original,
strip fences unconditionally, turn every wide-class control character into a
space, collapse whitespace, trim. -/
def fallbackClean (l : List Char) : List Char :=
  trimJs (collapseWs ((stripFenceEnd (stripFenceStart3 (stripFenceEnd
    (stripFenceStartJson (trimJs l))))).map
      (fun c => if isCtrlWide c then ' ' else c)))

/-- Model of `cleanJsonResponse` (proposals route): trim, guarded fence
strip, remove narrow-class control characters, escape newline/tab/CR
that sit between quotes, space out the remaining ones unless a key pattern
follows, collapse whitespace runs, trim; fall back to the aggressive chain
when the result does not start with a brace. -/
def cleanJsonResponse (s : String) : String :=
  let cleaned := trimJs (collapseWs
    (chKeyToSpace '\t' (chKeyToSpace '\r' (chKeyToSpace '\n'
      (escBetweenQuotes '\r' 'r' false
        (escBetweenQuotes '\t' 't' false
          (escBetweenQuotes '\n' 'n' false
            ((stripFences (trimJs s.data)).filter (fun c => !isCtrlNarrow c)))))))))
  String.mk (match cleaned with
    | c :: _ => if c = lbrace then cleaned else fallbackClean s.data
    | [] => fallbackClean s.data)

/-- Model of the sequential global replace `([^\\])X` → `$1\X`: escapes X
when the previous character exists and is not a backslash; matching resumes
after each two-character match, as the JavaScript engine does. -/
def escPairs (t e : Char) : List Char → List Char
  | [] => []
  | [c] => [c]
  | a :: b :: r =>
    if a ≠ '\\' && b = t then a :: '\\' :: e :: escPairs t e r
    else a :: escPairs t e (b :: r)

/-- Does the list begin with optional whitespace followed by a closing brace
or bracket?  Tail test of the trailing-comma regex. -/
def closeAhead (l : List Char) : Bool :=
  match l.dropWhile isJsWs with
  | x :: _ => x = rbrace || x = ']'
  | [] => false

/-- Model of `.replace(/,(\s*[}\]])/g, '$1')`: drops a comma standing
(modulo whitespace) before a closing brace or bracket. -/
def dropCommaClose : List Char → List Char
  | [] => []
  | c :: r =>
    if c = ',' && closeAhead r then dropCommaClose r
    else c :: dropCommaClose r

/-- Model of `.replace(/^X/, '\X')`: escape a single leading character. -/
def leadEsc (t e : Char) (l : List Char) : List Char :=
  match l with
  | c :: r => if c = t then '\\' :: e :: r else l
  | [] => []

/-- First repair stage of `safeJsonParse`: escape unescaped newlines, tabs
and carriage returns, strip trailing commas, fix a leading newline or tab. -/
def fixStage1 (s : String) : String :=
  String.mk (leadEsc '\t' 't' (leadEsc '\n' 'n'
    (dropCommaClose (escPairs '\r' 'r' (escPairs '\t' 't' (escPairs '\n' 'n' s.data))))))

/-- Model of `.replace(/X/g, '\X')`. -/
def escAll (t e : Char) : List Char → List Char
  | [] => []
  | c :: r => if c = t then '\\' :: e :: escAll t e r else c :: escAll t e r

/-- Model of `.replace(/X/g, 'Y')` for single characters. -/
def replaceChar (t out : Char) (l : List Char) : List Char :=
  l.map (fun c => if c = t then out else c)

/-- Second repair stage of `safeJsonParse`, applied to the original input:
escape every newline, CR and tab; the source's quote "normalizations"
replace a straight double quote by itself and a straight single quote by
itself (the intended smart-quote characters degenerated to ASCII in the
source), hence are literal identity replaces. -/
def fixStage2 (s : String) : String :=
  String.mk (replaceChar squote squote (replaceChar '\"' '\"'
    (replaceChar '\"' '\"'
      (escAll '\t' 't' (escAll '\r' 'r' (escAll '\n' 'n' s.data))))))

/-- Model of the sequential `.replace(/\\X/g, C)` used on the extracted
content capture. -/
def unescSeq (e out : Char) : List Char → List Char
  | '\\' :: c :: r => if c = e then out :: unescSeq e out r else '\\' :: unescSeq e out (c :: r)
  | c :: r => c :: unescSeq e out r
  | [] => []

/-- Post-processing of the content capture:
unescape `\n`, `\t`, `\"`, `\\`, then trim. -/
def unescContent (l : List Char) : List Char :=
  trimJs (unescSeq '\\' '\\' (unescSeq '\"' '\"' (unescSeq 't' '\t' (unescSeq 'n' '\n' l))))

/-- Lookahead boundary `",\s*"|\n\s*"|\n\s*}` of the content-extraction
regex. -/
def contentBoundary (l : List Char) : Bool :=
  match l with
  | '\"' :: ',' :: r =>
    (match r.dropWhile isJsWs with
     | '\"' :: _ => true
     | _ => false)
  | '\n' :: r =>
    (match r.dropWhile isJsWs with
     | c :: _ => c = '\"' || c = rbrace
     | [] => false)
  | _ => false

/-- Lazy capture `([\s\S]*?)` up to the first position where the boundary
lookahead holds; `none` when no boundary follows (the match attempt fails). -/
def lazyCapture : List Char → Option (List Char)
  | [] => if contentBoundary [] then some [] else none
  | c :: r =>
    if contentBoundary (c :: r) then some []
    else (lazyCapture r).map (fun cap => c :: cap)

/-- Literal `"content":` of the extraction regexes. -/
def keyContent : List Char := '\"' :: 'c' :: 'o' :: 'n' :: 't' :: 'e' :: 'n' :: 't' :: '\"' :: [':']

/-- Leftmost match of `/"content":\s*"([\s\S]*?)(?=",\s*"|\n\s*"|\n\s*})/`,
returning the capture. -/
def findContentCap : List Char → Option (List Char)
  | [] => none
  | c :: r =>
    if keyContent.isPrefixOf (c :: r) then
      (match ((c :: r).drop 10).dropWhile isJsWs with
       | '\"' :: body =>
         (match lazyCapture body with
          | some cap => some cap
          | none => findContentCap r)
       | _ => findContentCap r)
    else findContentCap r

/-- Leftmost match of the fallback `/"content":\s*"([^"]+)/`. -/
def findContentCap2 : List Char → Option (List Char)
  | [] => none
  | c :: r =>
    if keyContent.isPrefixOf (c :: r) then
      (match ((c :: r).drop 10).dropWhile isJsWs with
       | '\"' :: body =>
         (match body.takeWhile (fun x => x ≠ '\"') with
          | [] => findContentCap2 r
          | cap => some cap)
       | _ => findContentCap2 r)
    else findContentCap2 r

/-- Leftmost match of `/"K":\s*\[([\s\S]*?)\]/` for a field name K: the
capture is everything up to the first closing bracket after the opening
one; the attempt fails (and the scan moves on) when no closing bracket
follows. -/
def findArrCap (key : List Char) : List Char → Option (List Char)
  | [] => none
  | c :: r =>
    if key.isPrefixOf (c :: r) then
      (match ((c :: r).drop key.length).dropWhile isJsWs with
       | '[' :: body =>
         if body.contains ']' then some (body.takeWhile (fun x => x ≠ ']'))
         else findArrCap key r
       | _ => findArrCap key r)
    else findArrCap key r

/-- One array-field extraction of the manual fallback: re-wrap the capture
in brackets, space out newlines and tabs, strict-parse; a parse failure
yields the empty array, a missing match yields no field at all. -/
def extractArrField (key : String) (l : List Char) : Option Json :=
  match findArrCap ('\"' :: (key.data ++ ['\"', ':'])) l with
  | some cap =>
    some (match jsonParse (String.mk
            ('[' :: (replaceChar '\t' ' ' (replaceChar '\n' ' ' cap) ++ [']']))) with
          | some v => v
          | none => .arr [])
  | none => none

/-- Manual field-level extraction of `safeJsonParse` (its last resort):
independently extract `content` and the four array fields, assemble the
found fields in source order, and fall back to the deterministic minimal
record when nothing was found.  The source's final `return fallback` sits
behind a catch whose body cannot throw, so it has no counterpart here. -/
def jsExtract (s : String) : Json :=
  let l := s.data
  let fields : List (String × Json) :=
    (match findContentCap l with
     | some cap => [("content", Json.str (String.mk (unescContent cap)))]
     | none =>
       match findContentCap2 l with
       | some cap => [("content", Json.str (String.mk (trimJs cap)))]
       | none => [])
    ++ (match extractArrField "table" l with | some v => [("table", v)] | none => [])
    ++ (match extractArrField "phases" l with | some v => [("phases", v)] | none => [])
    ++ (match extractArrField "team" l with | some v => [("team", v)] | none => [])
    ++ (match extractArrField "risks" l with | some v => [("risks", v)] | none => [])
  if fields.isEmpty then
    .obj [("content", .str "Content extraction failed, but proposal generation completed."),
          ("table", .arr []), ("phases", .arr []), ("team", .arr []), ("risks", .arr [])]
  else .obj fields

/-- Model of `safeJsonParse` (proposals route): try the strict parse of the
stage-1 repair, then of the stage-2 repair of the original string, then the
manual extraction.  Every branch returns a value: the function cannot
throw. -/
def safeJsonParse (s : String) : Json :=
  match jsonParse (fixStage1 s) with
  | some v => v
  | none =>
    match jsonParse (fixStage2 s) with
    | some v => v
    | none => jsExtract s

/-- Bracket-depth scan of `cleanAndParseJSON`, starting at the first opening
brace with depth 0: returns the span up to the matching close, or `none`
when the depth never returns to zero (`lastBrace === -1`).  As in the
source, braces inside string literals are counted. -/
def takeBalanced : List Char → Nat → List Char → Option (List Char)
  | [], _, _ => none
  | c :: r, depth, acc =>
    if c = lbrace then takeBalanced r (depth + 1) (c :: acc)
    else if c = rbrace then
      (match depth with
       | 0 => none
       | 1 => some (c :: acc).reverse
       | Nat.succ (Nat.succ d) => takeBalanced r (Nat.succ d) (c :: acc))
    else takeBalanced r depth (c :: acc)

/-- Extract the first balanced top-level object span; the string is left
unchanged when it has no opening brace or the braces never balance. -/
def braceSlice (l : List Char) : List Char :=
  if l.contains lbrace then
    (match takeBalanced (l.dropWhile (fun c => c ≠ lbrace)) 0 [] with
     | some span => span
     | none => l)
  else l

/-- Model of `cleanAndParseJSON` (analyze route): trim, guarded fence strip,
balanced-brace slice, strict parse.  `none` models the uncaught
`JSON.parse` exception. -/
def cleanAndParseJSON (s : String) : Option Json :=
  jsonParse (String.mk (braceSlice (stripFences (trimJs s.data))))

/-- Decoder applied to every proposal agent response:
`safeJsonParse(cleanJsonResponse(text))`. -/
def agentDecode (s : String) : Json :=
  safeJsonParse (cleanJsonResponse s)

/-- Content cleaning of the NvI generator before its strict parse: trim,
guarded fence strip, narrow control-character removal. -/
def nviCleanContent (s : String) : String :=
  String.mk ((stripFences (trimJs s.data)).filter (fun c => !isCtrlNarrow c))


/-- Priority tier label of the NvI view (`getPriorityLabel` in the
Proposal & NvI component). -/
def getPriorityLabel (score : Int) : String :=
  if score ≥ 6 then "HIGH" else if score ≥ 4 then "MEDIUM" else "LOW"

/-- Inline tier ternary of ProposalView.tsx (question priorities rendering):
`totalScore >= 6 ? 'HIGH' : totalScore >= 4 ? 'MEDIUM' : 'LOW'`. -/
def questionPriorityView (totalScore : Int) : String :=
  if totalScore ≥ 6 then "HIGH" else if totalScore ≥ 4 then "MEDIUM" else "LOW"

/-- High-priority filter of the NvI export (`q.priorityScore >= 6`). -/
def isHighPriority (n : Int) : Bool := n ≥ 6

/-- Medium-priority filter (`q.priorityScore >= 4 && q.priorityScore < 6`). -/
def isMediumPriority (n : Int) : Bool := n ≥ 4 && n < 6

/-- Low-priority filter (`q.priorityScore < 4`). -/
def isLowPriority (n : Int) : Bool := n < 4

/-- Decoded NvI question as typed by the generation route. -/
structure NvIQuestion where
  lens : String
  issue : String
  question : String
  justification : String
  koRisk : Int
  meatImpact : Int
  euroImpact : Int
  timeImpact : Int
  evidenceRisk : Int
  priorityScore : Int
deriving DecidableEq, Repr

/-- Row of the `nvi_questions` table as written by the generation route. -/
structure NviRow where
  user_id : String
  tender_id : String
  lens : String
  issue : String
  question : String
  priority_score : Int
  ko_risk : Int
  meat_impact : Int
  euro_impact : Int
  time_impact : Int
  evidence_risk : Int
  status : String
deriving DecidableEq, Repr

/-- The `questionsToSave` mapping of the NvI route: every factor and the
priority score are copied verbatim from the decoded question; status is
always `draft`. -/
def questionsToSave (userId tenderId : String) (qs : List NvIQuestion) : List NviRow :=
  qs.map (fun q =>
    { user_id := userId, tender_id := tenderId, lens := q.lens, issue := q.issue,
      question := q.question, priority_score := q.priorityScore, ko_risk := q.koRisk,
      meat_impact := q.meatImpact, euro_impact := q.euroImpact, time_impact := q.timeImpact,
      evidence_risk := q.evidenceRisk, status := "draft" })

/-- CHECK constraints of the `nvi_questions` DDL: each of the five factors
must lie in [0,3] (a violating row is rejected, not clamped);
`priority_score` carries no constraint at all. -/
def nviRowCheck (r : NviRow) : Bool :=
  0 ≤ r.ko_risk && r.ko_risk ≤ 3 && 0 ≤ r.meat_impact && r.meat_impact ≤ 3 &&
  0 ≤ r.euro_impact && r.euro_impact ≤ 3 && 0 ≤ r.time_impact && r.time_impact ≤ 3 &&
  0 ≤ r.evidence_risk && r.evidence_risk ≤ 3

/-- Delete of all `nvi_questions` rows for a (user, tender) pair. -/
def nviDeleteFor (uid tid : String) (st : List NviRow) : List NviRow :=
  st.filter (fun r => !(r.user_id = uid && r.tender_id = tid))

/-- The rows of the store belonging to a (user, tender) pair. -/
def nviRowsFor (uid tid : String) (st : List NviRow) : List NviRow :=
  st.filter (fun r => r.user_id = uid && r.tender_id = tid)

/-- One Pinecone match as consumed by the routes: only `metadata?.id`
steers control flow; title/score/type feed prompt and display text. -/
structure VectorMatch where
  id : Option String
deriving DecidableEq, Repr

/-- Merged result of `findRelevantCapabilities`. -/
structure RetrievalResult where
  companies : List VectorMatch
  products : List VectorMatch
deriving DecidableEq, Repr

/-- Reply of one partition query; `matchList` models `searchResults.matches`,
which the source guards with `|| []` against null. -/
structure PartitionReply where
  matchList : Option (List VectorMatch)
deriving DecidableEq, Repr

/-- Outcome oracles for the two partition queries issued by
`findRelevantCapabilities`; an `error` value models a rejected promise. -/
structure RetrievalEnv where
  companiesQ : Except Unit PartitionReply
  productsQ : Except Unit PartitionReply

/-- Model of `findRelevantCapabilities` (src/lib/embeddings.ts): the two
partition queries run under one `Promise.all` inside one try/catch that
rethrows, so a rejection of either query fails the whole call; a partition
that succeeds with null matches contributes an empty list. -/
def findRelevantCapabilities (env : RetrievalEnv) : Except Unit RetrievalResult :=
  match env.companiesQ, env.productsQ with
  | .ok c, .ok p => .ok { companies := c.matchList.getD [], products := p.matchList.getD [] }
  | _, _ => .error ()

/-- Tender document fields surfaced by the route responses. -/
structure TenderRow where
  id : String
  title : String
  description : String
  reference_number : String
deriving DecidableEq, Repr

/-- Company row fields steering control flow (the descriptive columns feed
prompt text only). -/
structure CompanyRow where
  id : String
  user_id : String
deriving DecidableEq, Repr

/-- Product row fields steering control flow. -/
structure ProductRow where
  id : String
  company_id : String
  user_id : String
deriving DecidableEq, Repr

/-- The relational store visible to the detail-fetch queries. -/
structure Db where
  companies : List CompanyRow
  products : List ProductRow
deriving DecidableEq, Repr

/-- Read shape of a `tender_analysis` row. -/
structure AnalysisRow where
  user_id : String
  tender_id : String
  overall_match : Json
  competitiveness : Json
  recommendation : Json
  strengths : Json
  gaps : Json
  opportunities : Json
  risks : Json
  action_items : Json
  budget_assessment : Json
  timeline_assessment : Json
  strategic_advice : Json
  matching_products : Json
  relevant_companies : Json
  relevant_products : Json
  created_at : String

/-- Payload written by the analysis upsert (keyed `user_id,tender_id`). -/
structure AnalysisUpsert where
  user_id : String
  tender_id : String
  overall_match : Json
  competitiveness : Json
  recommendation : Json
  strengths : Json
  gaps : Json
  opportunities : Json
  risks : Json
  action_items : Json
  budget_assessment : Json
  timeline_assessment : Json
  strategic_advice : Json
  matching_products : Json
  relevant_companies : Json
  relevant_products : Json
  updated_at : String

/-- Analysis payload of the cache-hit response: field-by-field projection
of the stored row with `|| []` defaults on the list columns. -/
def cachePayload (row : AnalysisRow) : Json :=
  .obj [("overallMatch", row.overall_match),
        ("competitiveness", row.competitiveness),
        ("recommendation", row.recommendation),
        ("strengths", jsOr row.strengths (.arr [])),
        ("gaps", jsOr row.gaps (.arr [])),
        ("opportunities", jsOr row.opportunities (.arr [])),
        ("risks", jsOr row.risks (.arr [])),
        ("actionItems", jsOr row.action_items (.arr [])),
        ("budgetAssessment", row.budget_assessment),
        ("timeline", row.timeline_assessment),
        ("strategicAdvice", row.strategic_advice),
        ("matchingProducts", jsOr row.matching_products (.arr []))]

/-- The `relevantCompaniesData` / `relevantProductsData` mapping; only the
id is modelled (name/score/type are display metadata). -/
def relevantData (ms : List VectorMatch) : Json :=
  .arr (ms.map (fun m => .obj [("id", match m.id with | some s => .str s | none => .null)]))

/-- The `.map(x => x.metadata?.id).filter(Boolean)` id collection: drops
absent ids and empty strings. -/
def idsOf (ms : List VectorMatch) : List String :=
  (ms.filterMap (fun m => m.id)).filter (fun s => s ≠ "")

/-- Company detail fetch: `in('id', companyIds).eq('user_id', user.id)`,
issued only when `companyIds` is non-empty. -/
def fetchCompanies (db : Db) (uid : String) (companyIds : List String) : List CompanyRow :=
  if companyIds.isEmpty then []
  else db.companies.filter (fun r => companyIds.contains r.id && r.user_id = uid)

/-- Product detail fetch: `in('id', productIds).eq('company_id',
companyIds[0] || '')`, issued only when `productIds` is non-empty; note the
filter uses the first matched company id (or the empty string) and carries
no user filter. -/
def fetchProducts (db : Db) (productIds companyIds : List String) : List ProductRow :=
  if productIds.isEmpty then []
  else db.products.filter (fun r => productIds.contains r.id && r.company_id = companyIds.headD "")

/-- Identity of one generation task. -/
inductive GenTask where
  | analysisMain : GenTask
  | productMatch : GenTask
  | nviGen : GenTask
  | agent : Nat → GenTask
deriving DecidableEq, Repr

/-- Backend side effects recorded by the route models (reads are not
recorded; the claims quantify over retrieval, generation and write calls). -/
inductive Effect where
  | retrievalCall : Effect
  | genCall : GenTask → Effect
  | upsertAnalysis : AnalysisUpsert → Effect
  | upsertProposal : String → String → Effect
  | deleteNvi : String → String → Effect
  | insertNvi : List NviRow → Effect

/-- Model of `response.choices[0]?.message?.content || '{}'`. -/
def contentOr (o : Option String) : String :=
  match o with
  | some s => if s = "" then "\x7b\x7d" else s
  | none => "\x7b\x7d"

/-- Fields contributed by an object spread `{...j}`; a non-object spreads to
nothing relevant here (the JavaScript index-enumeration of strings and
arrays is not exercised by any claim). -/
def spreadFields (j : Json) : List (String × Json) :=
  match j with
  | .obj fs => fs
  | _ => []

/-- Object-literal update `{...fs, k: v}`: overrides the key in place when
present, appends it otherwise. -/
def setField (fs : List (String × Json)) (k : String) (v : Json) : List (String × Json) :=
  if fs.any (fun p => p.1 = k) then fs.map (fun p => if p.1 = k then (k, v) else p)
  else fs ++ [(k, v)]

/-- The merged analysis `{...aiAnalysis, matchingProducts:
productMatching.matchingProducts || []}`. -/
def combinedAnalysis (ai productMatching : Json) : Json :=
  .obj (setField (spreadFields ai) "matchingProducts"
    (jsOr (getField productMatching "matchingProducts") (.arr [])))

/-- Row written by the analysis upsert, assembled from the combined
analysis with `|| []` defaults on the list fields. -/
def freshUpsert (uid tid : String) (combined rc rp : Json) (now : String) : AnalysisUpsert :=
  { user_id := uid, tender_id := tid,
    overall_match := getField combined "overallMatch",
    competitiveness := getField combined "competitiveness",
    recommendation := getField combined "recommendation",
    strengths := jsOr (getField combined "strengths") (.arr []),
    gaps := jsOr (getField combined "gaps") (.arr []),
    opportunities := jsOr (getField combined "opportunities") (.arr []),
    risks := jsOr (getField combined "risks") (.arr []),
    action_items := jsOr (getField combined "actionItems") (.arr []),
    budget_assessment := getField combined "budgetAssessment",
    timeline_assessment := getField combined "timeline",
    strategic_advice := getField combined "strategicAdvice",
    matching_products := jsOr (getField combined "matchingProducts") (.arr []),
    relevant_companies := rc, relevant_products := rp,
    updated_at := now }

/-- Product-matching fragment at fan-in: the deterministic fallback when
the product call was skipped (`pRes = none`) or its content failed the
guarded parse; the parsed value otherwise. -/
def prodMatchOf (pRes : Option (Option String)) : Json :=
  match pRes with
  | none => .obj [("matchingProducts", .arr [])]
  | some pOpt =>
    match cleanAndParseJSON (contentOr pOpt) with
    | some pm => pm
    | none => .obj [("matchingProducts", .arr [])]

/-- External-world oracles of one tender-analysis request. -/
structure AnalyzeEnv where
  tender : Option TenderRow
  cached : Option AnalysisRow
  retrieval : Except Unit RetrievalResult
  analysisContent : Except Unit (Option String)
  productContent : Except Unit (Option String)
  saveError : Bool
  now : String

/-- Response of the tender-analysis route. -/
inductive AnalyzeResp where
  | fail : Nat → AnalyzeResp
  | ok : TenderRow → Json → Json → Json → List CompanyRow → List ProductRow →
      Bool → String → AnalyzeResp

/-- Model of the tender-analysis POST handler: identifier validation,
tender lookup, cache short-circuit (skipped under `forceReanalyze`),
retrieval, detail fetch, the two-task generation fan-out under one
`Promise.all`, decoding (the main analysis parse unguarded, the product
parse guarded with a fallback), merge, upsert (write failure only logged),
response.  Auth/session failures are upstream of every claim and are not
modelled. -/
def analyzePOST (uid tid : String) (force : Bool) (env : AnalyzeEnv) (db : Db) :
    AnalyzeResp × List Effect :=
  if tid = "" then (.fail 400, [])
  else match env.tender with
  | none => (.fail 404, [])
  | some tender =>
    match (if force then none else env.cached) with
    | some row =>
      (.ok tender (cachePayload row) (jsOr row.relevant_companies (.arr []))
        (jsOr row.relevant_products (.arr [])) [] [] true row.created_at, [])
    | none =>
      match env.retrieval with
      | .error _ => (.fail 500, [.retrievalCall])
      | .ok rel =>
        let companyIds := idsOf rel.companies
        let productIds := idsOf rel.products
        let companies := fetchCompanies db uid companyIds
        let products := fetchProducts db productIds companyIds
        let genEffects := Effect.genCall .analysisMain ::
          (if products.isEmpty then [] else [Effect.genCall .productMatch])
        let effBase := Effect.retrievalCall :: genEffects
        let productRes : Except Unit (Option (Option String)) :=
          if products.isEmpty then .ok none else env.productContent.map some
        match env.analysisContent, productRes with
        | .error _, _ => (.fail 500, effBase)
        | _, .error _ => (.fail 500, effBase)
        | .ok aOpt, .ok pRes =>
          match cleanAndParseJSON (contentOr aOpt) with
          | none => (.fail 500, effBase)
          | some ai =>
            let combined := combinedAnalysis ai (prodMatchOf pRes)
            let rc := relevantData rel.companies
            let rp := relevantData rel.products
            (.ok tender combined rc rp companies products false env.now,
             effBase ++ [.upsertAnalysis (freshUpsert uid tid combined rc rp env.now)])

/-- External-world oracles of one proposal-generation request. -/
structure ProposalEnv where
  tender : Option TenderRow
  analysisRow : Option AnalysisRow
  introC : Except Unit (Option String)
  execC : Except Unit (Option String)
  methC : Except Unit (Option String)
  orgC : Except Unit (Option String)
  riskC : Except Unit (Option String)
  sustC : Except Unit (Option String)
  whyC : Except Unit (Option String)
  saveError : Bool

/-- One assembled proposal section. -/
structure SectionOut where
  title : String
  content : Json
  stype : String

/-- The composite proposal assembled at fan-in. -/
structure GeneratedProposal where
  title : String
  sections : List SectionOut
  executiveSummaryTable : Json
  methodologyPhases : Json
  teamStructure : Json
  riskMatrix : Json

/-- Response of the proposal-generation route. -/
inductive ProposalResp where
  | fail : Nat → ProposalResp
  | ok : GeneratedProposal → Bool → ProposalResp

/-- Fan-in assembly of the seven decoded agent fragments. -/
def buildProposal (tenderTitle : String) (iJ eJ mJ oJ rJ sJ wJ : Json) : GeneratedProposal :=
  { title := "Proposal for " ++ tenderTitle,
    sections := [
      ⟨"Company Introduction", getField iJ "content", "company_intro"⟩,
      ⟨"Executive Summary", getField eJ "content", "executive_summary"⟩,
      ⟨"Methodology & Execution", getField mJ "content", "methodology"⟩,
      ⟨"Organisation & Governance", getField oJ "content", "organisation"⟩,
      ⟨"Risk Management", getField rJ "content", "risk_management"⟩,
      ⟨"Sustainability & Innovation", getField sJ "content", "sustainability"⟩,
      ⟨"Why Choose Us", getField wJ "content", "why_choose_us"⟩],
    executiveSummaryTable := getField eJ "table",
    methodologyPhases := getField mJ "phases",
    teamStructure := getField oJ "team",
    riskMatrix := getField rJ "risks" }

/-- Model of the proposal-generation POST handler: validation and lookups,
seven-agent fan-out under one `Promise.all` (a rejected backend call fails
the whole request; unparseable content never does, since every agent
decodes through `safeJsonParse`), assembly, upsert keyed
`user_id,tender_id` whose failure is only logged. -/
def proposalPOST (uid tid : String) (env : ProposalEnv) : ProposalResp × List Effect :=
  if tid = "" then (.fail 400, [])
  else match env.tender with
  | none => (.fail 404, [])
  | some tender =>
    match env.analysisRow with
    | none => (.fail 404, [])
    | some _ =>
      let genEffects := (List.range 7).map (fun i => Effect.genCall (.agent i))
      match env.introC, env.execC, env.methC, env.orgC, env.riskC, env.sustC, env.whyC with
      | .ok i, .ok e, .ok m, .ok o, .ok r, .ok s, .ok w =>
        (.ok (buildProposal tender.title
            (agentDecode (contentOr i)) (agentDecode (contentOr e))
            (agentDecode (contentOr m)) (agentDecode (contentOr o))
            (agentDecode (contentOr r)) (agentDecode (contentOr s))
            (agentDecode (contentOr w))) (!env.saveError),
         genEffects ++ [.upsertProposal uid tid])
      | _, _, _, _, _, _, _ => (.fail 500, genEffects)

/-- Digit-run value. -/
def natOfDigits (l : List Char) : Nat :=
  l.foldl (fun n c => n * 10 + (c.toNat - 48)) 0

/-- Integer value of a numeric literal; integral literals only (the scoring
fields are integers throughout the source). -/
def intOfLit (s : String) : Int :=
  match s.data with
  | '-' :: ds => - (natOfDigits (ds.takeWhile Char.isDigit) : Int)
  | ds => (natOfDigits (ds.takeWhile Char.isDigit) : Int)

/-- JavaScript read of a numeric field. -/
def jsToInt (j : Json) : Int :=
  match j with
  | .num lit => intOfLit lit
  | _ => 0

/-- JavaScript read of a string field. -/
def jsToStr (j : Json) : String :=
  match j with
  | .str s => s
  | _ => ""

/-- Untyped cast of one parsed question object to the `NvIQuestion` shape,
as the route's field accesses perform. -/
def jsonToQuestion (j : Json) : NvIQuestion :=
  { lens := jsToStr (getField j "lens"), issue := jsToStr (getField j "issue"),
    question := jsToStr (getField j "question"),
    justification := jsToStr (getField j "justification"),
    koRisk := jsToInt (getField j "koRisk"), meatImpact := jsToInt (getField j "meatImpact"),
    euroImpact := jsToInt (getField j "euroImpact"), timeImpact := jsToInt (getField j "timeImpact"),
    evidenceRisk := jsToInt (getField j "evidenceRisk"),
    priorityScore := jsToInt (getField j "priorityScore") }

/-- Model of `generateNvIQuestions`: null content throws, the cleaned text
is strict-parsed (a parse failure rethrows), and a non-array result makes
the caller's `.map` throw; every throw lands in the route's catch. -/
def generateNvIQuestions (genContent : Except Unit (Option String)) :
    Except Unit (List NvIQuestion) :=
  match genContent with
  | .error _ => .error ()
  | .ok none => .error ()
  | .ok (some content) =>
    match jsonParse (nviCleanContent content) with
    | none => .error ()
    | some (.arr items) => .ok (items.map jsonToQuestion)
    | some _ => .error ()

/-- External-world oracles of one NvI-generation request. -/
structure NviEnv where
  tender : Option TenderRow
  analysisRow : Option AnalysisRow
  genContent : Except Unit (Option String)
  insertError : Bool

/-- Response of the NvI-generation route. -/
inductive NviResp where
  | fail : Nat → NviResp
  | ok : List NvIQuestion → Nat → NviResp
deriving DecidableEq, Repr

/-- Model of the NvI POST handler: validation and lookups, generation,
delete of all prior rows for the (user, tender) pair (its result is
ignored by the source), insert of the new rows; an insert failure returns
a 500 error even though the fresh questions were computed.  Returns the
response together with the resulting `nvi_questions` store and the effect
trace. -/
def nviPOST (uid tid : String) (env : NviEnv) (st : List NviRow) :
    NviResp × List NviRow × List Effect :=
  if tid = "" then (.fail 400, st, [])
  else match env.tender with
  | none => (.fail 404, st, [])
  | some _ =>
    match env.analysisRow with
    | none => (.fail 404, st, [])
    | some _ =>
      match generateNvIQuestions env.genContent with
      | .error _ => (.fail 500, st, [.genCall .nviGen])
      | .ok qs =>
        let rows := questionsToSave uid tid qs
        let deleted := nviDeleteFor uid tid st
        if env.insertError then
          (.fail 500, deleted, [.genCall .nviGen, .deleteNvi uid tid])
        else
          (.ok qs rows.length, deleted ++ rows,
           [.genCall .nviGen, .deleteNvi uid tid, .insertNvi rows])

/-- No two consecutive JavaScript-whitespace characters. -/
def noTwoWs : List Char → Bool
  | [] => true
  | [_] => true
  | a :: b :: r => !(isJsWs a && isJsWs b) && noTwoWs (b :: r)

/-- No comma standing (modulo whitespace) before a closing brace or
bracket anywhere in the list. -/
def noCommaClose : List Char → Bool
  | [] => true
  | c :: r => !(c = ',' && closeAhead r) && noCommaClose r

/-- A character on which every sanitization pass of the decoder chain is
the identity: not in the control classes, not a raw newline/tab/CR, and
whitespace only if a plain space. -/
def plainChar (c : Char) : Bool :=
  !isCtrlNarrow c && !(c = '\n') && !(c = '\t') && !(c = '\r') && (!isJsWs c || c = ' ')

/-- Syntactic cleanliness of a serialized object literal under which the
whole repair chain is the identity: only plain characters, no whitespace
runs, no comma before a closing bracket, first character an opening brace
and last character a closing brace. -/
def cleanLiteral (l : List Char) : Bool :=
  l.all plainChar && noTwoWs l && noCommaClose l &&
  (match l with | c :: _ => c = lbrace | [] => false) &&
  (match l.getLast? with | some c => c = rbrace | none => false)

/-- The `matchedProducts` list of an analysis response, when successful. -/
def respMatchedProducts : AnalyzeResp → Option (List ProductRow)
  | .ok _ _ _ _ _ mp _ _ => some mp
  | .fail _ => none

/-- Concrete tender used by the scenario constants. -/
def t0 : TenderRow := { id := "t1", title := "T", description := "D", reference_number := "R" }

/-- Concrete cached analysis row used by the scenario constants. -/
def analysisRow0 : AnalysisRow :=
  { user_id := "u", tender_id := "t1",
    overall_match := .num "80", competitiveness := .str "High",
    recommendation := .str "Should bid", strengths := .arr [.str "s"],
    gaps := .null, opportunities := .arr [], risks := .null,
    action_items := .arr [.str "a"], budget_assessment := .str "ok",
    timeline_assessment := .str "tight", strategic_advice := .str "go",
    matching_products := .null, relevant_companies := .arr [], relevant_products := .null,
    created_at := "2024-01-01" }

/-- Retrieval oracle with the companies partition down and the products
partition healthy. -/
def retEnvFail : RetrievalEnv :=
  { companiesQ := .error (), productsQ := .ok { matchList := some [{ id := some "p1" }] } }

/-- Decoded question whose priority score is not the factor sum. -/
def q0 : NvIQuestion :=
  { lens := "Legal & Process", issue := "ambiguous deadline", question := "clarify",
    justification := "j", koRisk := 0, meatImpact := 0, euroImpact := 0,
    timeImpact := 0, evidenceRisk := 0, priorityScore := 99 }

/-- Rows the NvI route would persist for `q0`. -/
def nviSaveRows0 : List NviRow := questionsToSave "u" "t1" [q0]

/-- Well-formed product-matching reply. -/
def prodStr0 : String := "\x7b\"matchingProducts\": [\x7b\"name\": \"X\"\x7d]\x7d"

/-- Well-formed main-analysis reply. -/
def aiStr0 : String := "\x7b\"overallMatch\": 75, \"strengths\": [\"s1\"]\x7d"

/-- Concrete store with one company owning one product. -/
def db0 : Db :=
  { companies := [{ id := "c1", user_id := "u" }],
    products := [{ id := "p1", company_id := "c1", user_id := "u" }] }

/-- Analysis request whose main generation task returns unparseable text
while the product-matching task returns valid JSON. -/
def envC1 : AnalyzeEnv :=
  { tender := some t0, cached := none,
    retrieval := .ok { companies := [{ id := some "c1" }], products := [{ id := some "p1" }] },
    analysisContent := .ok (some "no json here"),
    productContent := .ok (some prodStr0),
    saveError := false, now := "now" }

/-- Analysis request whose main task parses and whose product-matching
task returns unparseable text. -/
def envC1w : AnalyzeEnv :=
  { tender := some t0, cached := none,
    retrieval := .ok { companies := [{ id := some "c1" }], products := [{ id := some "p1" }] },
    analysisContent := .ok (some aiStr0),
    productContent := .ok (some "garbage!!"),
    saveError := false, now := "now" }

/-- Forced re-analysis request with a cached row present. -/
def envForce : AnalyzeEnv := { envC1w with cached := some analysisRow0 }

/-- Cache-hit request; the unused oracles are set to rejections so that a
path depending on them could not succeed silently. -/
def envCache : AnalyzeEnv :=
  { tender := some t0, cached := some analysisRow0, retrieval := .error (),
    analysisContent := .error (), productContent := .error (),
    saveError := false, now := "now" }

/-- Analysis request where retrieval yields a product match but no company
match; the product-detail oracle is a rejection, which must stay unused
because the empty detail fetch skips the product call. -/
def envC10 : AnalyzeEnv :=
  { tender := some t0, cached := none,
    retrieval := .ok { companies := [], products := [{ id := some "p1" }] },
    analysisContent := .ok (some aiStr0), productContent := .error (),
    saveError := false, now := "now" }

/-- Proposal request whose seven agents return a mix of garbage, null and
valid content, with a failing persistence write. -/
def propEnv0 : ProposalEnv :=
  { tender := some t0, analysisRow := some analysisRow0,
    introC := .ok (some "intro garbage"), execC := .ok none,
    methC := .ok (some ""), orgC := .ok (some "\x7b\"content\": \"ok\", \"team\": []\x7d"),
    riskC := .ok (some "also not json"), sustC := .ok (some "x"),
    whyC := .ok (some "y"), saveError := true }

/-- Well-formed NvI reply with one question. -/
def nviJson0 : String :=
  "[\x7b\"lens\":\"L\",\"issue\":\"I\",\"question\":\"Q\",\"koRisk\":1,\"meatImpact\":1,\"euroImpact\":0,\"timeImpact\":2,\"evidenceRisk\":1,\"priorityScore\":5,\"justification\":\"J\"\x7d]"

/-- The decoded form of `nviJson0`. -/
def qDecoded0 : NvIQuestion :=
  { lens := "L", issue := "I", question := "Q", justification := "J",
    koRisk := 1, meatImpact := 1, euroImpact := 0, timeImpact := 2,
    evidenceRisk := 1, priorityScore := 5 }

/-- Well-formed NvI reply with one different question. -/
def nviJson1 : String :=
  "[\x7b\"lens\":\"Scope\",\"issue\":\"I2\",\"question\":\"Q2\",\"koRisk\":2,\"meatImpact\":0,\"euroImpact\":1,\"timeImpact\":0,\"evidenceRisk\":3,\"priorityScore\":6,\"justification\":\"J2\"\x7d]"

/-- The decoded form of `nviJson1`. -/
def qDecoded1 : NvIQuestion :=
  { lens := "Scope", issue := "I2", question := "Q2", justification := "J2",
    koRisk := 2, meatImpact := 0, euroImpact := 1, timeImpact := 0,
    evidenceRisk := 3, priorityScore := 6 }

/-- NvI request whose insert fails. -/
def nviEnvC8 : NviEnv :=
  { tender := some t0, analysisRow := some analysisRow0,
    genContent := .ok (some nviJson0), insertError := true }

/-- First successful NvI generation. -/
def nviEnv1 : NviEnv :=
  { tender := some t0, analysisRow := some analysisRow0,
    genContent := .ok (some nviJson0), insertError := false }

/-- Second successful NvI generation. -/
def nviEnv2 : NviEnv :=
  { tender := some t0, analysisRow := some analysisRow0,
    genContent := .ok (some nviJson1), insertError := false }

/-- Serialized object literal with a double space inside a string field. -/
def c9bad : String := "\x7b\"content\":\"a  b\"\x7d"

/-- Serialized object literal satisfying `cleanLiteral`. -/
def c9good : String := "\x7b\"content\": \"hello world\"\x7d"

/-- Retrieval result with one company and one product match. -/
def rel0 : RetrievalResult :=
  { companies := [{ id := some "c1" }], products := [{ id := some "p1" }] }

/-- Retrieval result with a product match but no company match. -/
def rel0c : RetrievalResult :=
  { companies := [], products := [{ id := some "p1" }] }

/-- The parse of `aiStr0`. -/
def aiParsed0 : Json := .obj [("overallMatch", .num "75"), ("strengths", .arr [.str "s1"])]

/-- Concrete stored row with in-range factors. -/
def row0 : NviRow :=
  { user_id := "u", tender_id := "t1", lens := "L", issue := "I", question := "Q",
    priority_score := 5, ko_risk := 1, meat_impact := 1, euro_impact := 0,
    time_impact := 2, evidence_risk := 1, status := "draft" }

/-!
Theorems.  Each claim of the specification audit has exactly one theorem
(`C<n>_...`), preceded where applicable by a counterexample (for corrected
claims) and followed by a witness when the theorem carries hypotheses.
Shared helper lemmas come first.
-/

theorem questionsToSave_fields (uid tid : String) (qs : List NvIQuestion) :
    (questionsToSave uid tid qs).map
        (fun r => (r.ko_risk, r.meat_impact, r.euro_impact, r.time_impact,
                   r.evidence_risk, r.priority_score))
      = qs.map (fun q => (q.koRisk, q.meatImpact, q.euroImpact, q.timeImpact,
                          q.evidenceRisk, q.priorityScore)) := by
  simp [questionsToSave, List.map_map]

/-- C5: the priority tier is a pure function of the total with boundaries
exactly at 4 and 6: `total ≥ 6 → HIGH`, `4 ≤ total < 6 → MEDIUM`,
`total < 4 → LOW`; the rendering ternary of ProposalView and the export
filters agree with these boundaries. -/
theorem C5_priority_tier_boundaries (n : Int) :
    (getPriorityLabel n = "HIGH" ↔ 6 ≤ n) ∧
    (getPriorityLabel n = "MEDIUM" ↔ 4 ≤ n ∧ n < 6) ∧
    (getPriorityLabel n = "LOW" ↔ n < 4) ∧
    questionPriorityView n = getPriorityLabel n ∧
    (isHighPriority n = true ↔ 6 ≤ n) ∧
    (isMediumPriority n = true ↔ 4 ≤ n ∧ n < 6) ∧
    (isLowPriority n = true ↔ n < 4) := by
  refine ⟨?_, ?_, ?_, rfl, ?_, ?_, ?_⟩
  · unfold getPriorityLabel
    split_ifs with h1 h2 <;> simp <;> omega
  · unfold getPriorityLabel
    split_ifs with h1 h2 <;> simp <;> omega
  · unfold getPriorityLabel
    split_ifs with h1 h2 <;> simp <;> omega
  · simp [isHighPriority]
  · simp [isMediumPriority]
  · simp [isLowPriority]

/-- C4 counterexample: a decoded question with all five factors 0 and an
AI-supplied priority score of 99 is persisted verbatim: the stored row
passes every schema CHECK (so the database accepts it), yet its total is
not the factor sum and exceeds 15. -/
theorem C4_counterexample :
    nviSaveRows0.all nviRowCheck = true ∧
    nviSaveRows0.all (fun r => decide (r.priority_score =
      r.ko_risk + r.meat_impact + r.euro_impact + r.time_impact + r.evidence_risk)) = false ∧
    nviSaveRows0.all (fun r => decide (r.priority_score ≤ 15)) = false := by
  refine ⟨rfl, rfl, rfl⟩

/-- C4 (amended): the scoring path performs no clamping and no summation —
the persisted row copies the five factors and the priority score verbatim
from the decoded question, and the schema CHECKs reject (rather than
clamp) out-of-range factors while leaving the total unconstrained. -/
theorem C4_factors_stored_verbatim (uid tid : String) (qs : List NvIQuestion) (r : NviRow) :
    ((questionsToSave uid tid qs).map
        (fun r => (r.ko_risk, r.meat_impact, r.euro_impact, r.time_impact,
                   r.evidence_risk, r.priority_score))
      = qs.map (fun q => (q.koRisk, q.meatImpact, q.euroImpact, q.timeImpact,
                          q.evidenceRisk, q.priorityScore))) ∧
    (nviRowCheck r = true ↔
      (0 ≤ r.ko_risk ∧ r.ko_risk ≤ 3) ∧ (0 ≤ r.meat_impact ∧ r.meat_impact ≤ 3) ∧
      (0 ≤ r.euro_impact ∧ r.euro_impact ≤ 3) ∧ (0 ≤ r.time_impact ∧ r.time_impact ≤ 3) ∧
      (0 ≤ r.evidence_risk ∧ r.evidence_risk ≤ 3)) := by
  refine ⟨questionsToSave_fields uid tid qs, ?_⟩
  simp [nviRowCheck, Bool.and_eq_true, decide_eq_true_eq]
  tauto

/-- C3 counterexample: with the companies partition down and the products
partition healthy (one match), the whole retrieval call fails — partial
partition failure is not tolerated and no empty list is substituted. -/
theorem C3_counterexample :
    findRelevantCapabilities retEnvFail = .error () ∧
    retEnvFail.productsQ = .ok { matchList := some [{ id := some "p1" }] } :=
  ⟨rfl, rfl⟩

/-- C3 (amended): both partition queries run under one `Promise.all` in a
single rethrowing try/catch, so the call succeeds only when both succeed
(a null match list contributing an empty list), and the rejection of
either partition — not only of all partitions — fails the whole call with
the raw error (no typed RetrievalUnavailable exists). -/
theorem C3_retrieval_failure_semantics :
    (∀ c p, findRelevantCapabilities { companiesQ := .ok c, productsQ := .ok p } =
      .ok { companies := c.matchList.getD [], products := p.matchList.getD [] }) ∧
    (∀ q, findRelevantCapabilities { companiesQ := .error (), productsQ := q } = .error ()) ∧
    (∀ q, findRelevantCapabilities { companiesQ := q, productsQ := .error () } = .error ()) := by
  refine ⟨fun c p => rfl, fun q => ?_, fun q => ?_⟩
  · cases q <;> rfl
  · cases q <;> rfl

theorem nviRowsFor_append (u t : String) (a b : List NviRow) :
    nviRowsFor u t (a ++ b) = nviRowsFor u t a ++ nviRowsFor u t b := by
  simp [nviRowsFor, List.filter_append]

theorem nviRowsFor_delete (u t : String) (st : List NviRow) :
    nviRowsFor u t (nviDeleteFor u t st) = [] := by
  induction st with
  | nil => rfl
  | cons r rest ih =>
    by_cases h1 : r.user_id = u <;> by_cases h2 : r.tender_id = t <;>
      simp [nviRowsFor, nviDeleteFor, List.filter_cons, h1, h2, ih]

theorem nviRowsFor_save_self (u t : String) (qs : List NvIQuestion) :
    nviRowsFor u t (questionsToSave u t qs) = questionsToSave u t qs := by
  unfold nviRowsFor
  rw [List.filter_eq_self]
  intro r hr
  simp only [questionsToSave, List.mem_map] at hr
  obtain ⟨q, _, rfl⟩ := hr
  simp

theorem nviRowsFor_save_other (u t uid tid : String) (qs : List NvIQuestion)
    (h : ¬(u = uid ∧ t = tid)) :
    nviRowsFor u t (questionsToSave uid tid qs) = [] := by
  unfold nviRowsFor
  rw [List.filter_eq_nil_iff]
  intro r hr
  simp only [questionsToSave, List.mem_map] at hr
  obtain ⟨q, _, rfl⟩ := hr
  simp
  tauto

theorem nviRowsFor_delete_other (u t uid tid : String) (st : List NviRow)
    (h : ¬(u = uid ∧ t = tid)) :
    nviRowsFor u t (nviDeleteFor uid tid st) = nviRowsFor u t st := by
  induction st with
  | nil => rfl
  | cons r rest ih =>
    by_cases h1 : r.user_id = uid <;> by_cases h2 : r.tender_id = tid <;>
      by_cases h3 : r.user_id = u <;> by_cases h4 : r.tender_id = t <;>
      simp_all [nviRowsFor, nviDeleteFor, List.filter_cons]

theorem nviPOST_store (uid tid : String) (env : NviEnv) (st : List NviRow)
    (qs : List NvIQuestion) (t : TenderRow) (a : AnalysisRow)
    (htid : tid ≠ "") (ht : env.tender = some t) (ha : env.analysisRow = some a)
    (hg : generateNvIQuestions env.genContent = .ok qs) (hi : env.insertError = false) :
    (nviPOST uid tid env st).2.1 = nviDeleteFor uid tid st ++ questionsToSave uid tid qs := by
  simp [nviPOST, htid, ht, ha, hg, hi]

/-- C7: replace-whole-set semantics of question generation — after two
successful generations for the same (user, tender) pair, the store holds
exactly the second generation's rows for that pair (no duplicates, no
leftovers from the first), and rows of every other pair are untouched. -/
theorem C7_question_set_replacement
    (uid tid : String) (env1 env2 : NviEnv) (st : List NviRow)
    (qs1 qs2 : List NvIQuestion) (t1 t2 : TenderRow) (a1 a2 : AnalysisRow)
    (htid : tid ≠ "")
    (ht1 : env1.tender = some t1) (ha1 : env1.analysisRow = some a1)
    (hg1 : generateNvIQuestions env1.genContent = .ok qs1) (hi1 : env1.insertError = false)
    (ht2 : env2.tender = some t2) (ha2 : env2.analysisRow = some a2)
    (hg2 : generateNvIQuestions env2.genContent = .ok qs2) (hi2 : env2.insertError = false) :
    nviRowsFor uid tid (nviPOST uid tid env2 (nviPOST uid tid env1 st).2.1).2.1
      = questionsToSave uid tid qs2 ∧
    ∀ u t, ¬(u = uid ∧ t = tid) →
      nviRowsFor u t (nviPOST uid tid env2 (nviPOST uid tid env1 st).2.1).2.1
        = nviRowsFor u t st := by
  rw [nviPOST_store uid tid env1 st qs1 t1 a1 htid ht1 ha1 hg1 hi1,
      nviPOST_store uid tid env2 _ qs2 t2 a2 htid ht2 ha2 hg2 hi2]
  constructor
  · rw [nviRowsFor_append, nviRowsFor_delete, nviRowsFor_save_self]
    rfl
  · intro u t h
    rw [nviRowsFor_append, nviRowsFor_delete_other u t uid tid _ h,
        nviRowsFor_append, nviRowsFor_delete_other u t uid tid st h,
        nviRowsFor_save_other u t uid tid qs1 h,
        nviRowsFor_save_other u t uid tid qs2 h]
    simp

/-- C7 witness: two concrete successful generations for ("u","t1") leave
exactly the second set's row in the store. -/
theorem C7_question_set_replacement_witness :
    generateNvIQuestions nviEnv1.genContent = .ok [qDecoded0] ∧
    generateNvIQuestions nviEnv2.genContent = .ok [qDecoded1] ∧
    nviRowsFor "u" "t1" (nviPOST "u" "t1" nviEnv2 (nviPOST "u" "t1" nviEnv1 []).2.1).2.1
      = questionsToSave "u" "t1" [qDecoded1] :=
  ⟨rfl, rfl,
   (C7_question_set_replacement "u" "t1" nviEnv1 nviEnv2 [] [qDecoded0] [qDecoded1]
      t0 t0 analysisRow0 analysisRow0 (by decide) rfl rfl rfl rfl rfl rfl rfl rfl).1⟩

theorem jsExtract_isObj (s : String) : ∃ fs, jsExtract s = .obj fs := by
  simp only [jsExtract]
  split <;> exact ⟨_, rfl⟩

/-- C2 counterexample: the analysis-route decoder `cleanAndParseJSON`
throws (modelled as `none`) on the unparseable input "hello", and the
proposal-route decoder `safeJsonParse` returns a value without a `content`
field when the input strict-parses to a non-record literal ("[]"). -/
theorem C2_counterexample :
    cleanAndParseJSON "hello" = none ∧
    getField (safeJsonParse "[]") "content" = .null :=
  ⟨rfl, rfl⟩

/-- C2 (amended): `safeJsonParse` returns a value for every input — each
input lands in exactly one of the three recovery tiers, and the last tier
always yields an object (though possibly without a `content` field) — while
`cleanAndParseJSON` propagates the `JSON.parse` exception on unparseable
input, which its main-analysis caller observes as an error. -/
theorem C2_decoder_totality :
    (∀ s : String,
      (∃ v, jsonParse (fixStage1 s) = some v ∧ safeJsonParse s = v) ∨
      (∃ v, jsonParse (fixStage1 s) = none ∧ jsonParse (fixStage2 s) = some v ∧
        safeJsonParse s = v) ∨
      (∃ fs, jsonParse (fixStage1 s) = none ∧ jsonParse (fixStage2 s) = none ∧
        safeJsonParse s = .obj fs)) ∧
    cleanAndParseJSON "hello" = none := by
  refine ⟨fun s => ?_, rfl⟩
  unfold safeJsonParse
  cases h1 : jsonParse (fixStage1 s) with
  | some v => exact .inl ⟨v, rfl, rfl⟩
  | none =>
    cases h2 : jsonParse (fixStage2 s) with
    | some v => exact .inr (.inl ⟨v, rfl, rfl, rfl⟩)
    | none =>
      obtain ⟨fs, hfs⟩ := jsExtract_isObj s
      exact .inr (.inr ⟨fs, rfl, rfl, hfs⟩)

theorem dropWhile_id_of_head (p : Char → Bool) (l : List Char)
    (h : ∀ c, l.head? = some c → p c = false) : l.dropWhile p = l := by
  cases l with
  | nil => rfl
  | cons c r => simp [List.dropWhile_cons, h c rfl]

theorem trimJs_id (l : List Char)
    (h1 : ∀ c, l.head? = some c → isJsWs c = false)
    (h2 : ∀ c, l.getLast? = some c → isJsWs c = false) : trimJs l = l := by
  unfold trimJs
  rw [dropWhile_id_of_head _ _ h1]
  rw [dropWhile_id_of_head]
  · exact l.reverse_reverse
  · intro c hc
    exact h2 c (by rwa [List.head?_reverse] at hc)

theorem stripFences_id (l : List Char) (h : ∀ c, l.head? = some c → c = lbrace) :
    stripFences l = l := by
  cases l with
  | nil => rfl
  | cons c r =>
    have hc := h c rfl
    subst hc
    have hb : (btick == lbrace) = false := by decide
    simp [stripFences, fenceJson, fence3, List.isPrefixOf, hb]

theorem escBetweenQuotes_id (t e : Char) : ∀ (l : List Char), (∀ c ∈ l, ¬ c = t) →
    ∀ q, escBetweenQuotes t e q l = l
  | [], _, _ => rfl
  | c :: r, h, q => by
    have hc : ¬ c = t := h c (.head r)
    have ih := escBetweenQuotes_id t e r (fun x hx => h x (.tail c hx))
    simp [escBetweenQuotes, hc, ih]

theorem chKeyToSpace_id (t : Char) : ∀ (l : List Char), (∀ c ∈ l, ¬ c = t) →
    chKeyToSpace t l = l
  | [], _ => rfl
  | c :: r, h => by
    have hc : ¬ c = t := h c (.head r)
    have ih := chKeyToSpace_id t r (fun x hx => h x (.tail c hx))
    simp [chKeyToSpace, hc, ih]

theorem collapseWs_id : ∀ (l : List Char), noTwoWs l = true →
    (∀ c ∈ l, isJsWs c = true → c = ' ') → collapseWs l = l
  | [], _, _ => rfl
  | [c], _, h2 => by
    by_cases hw : isJsWs c = true
    · have hsp := h2 c (.head []) hw
      subst hsp
      rfl
    · simp [collapseWs, hw]
  | a :: b :: r, h1, h2 => by
    simp only [noTwoWs, Bool.and_eq_true, Bool.not_eq_true'] at h1
    obtain ⟨hab, hrest⟩ := h1
    have ih := collapseWs_id (b :: r) hrest (fun x hx hw => h2 x (.tail a hx) hw)
    by_cases hwa : isJsWs a = true
    · have ha : a = ' ' := h2 a (.head _) hwa
      subst ha
      have hb : isJsWs b = false := by
        rw [hwa] at hab
        simpa using hab
      simp [collapseWs, hab, hwa, hb, ih]
    · simp [collapseWs, hwa, ih]

theorem escPairs_id (t e : Char) : ∀ (l : List Char), (∀ c ∈ l, ¬ c = t) →
    escPairs t e l = l
  | [], _ => rfl
  | [_], _ => rfl
  | a :: b :: r, h => by
    have hb : ¬ b = t := h b (.tail a (.head r))
    have ih := escPairs_id t e (b :: r) (fun x hx => h x (.tail a hx))
    simp [escPairs, hb, ih]

theorem dropCommaClose_id : ∀ (l : List Char), noCommaClose l = true →
    dropCommaClose l = l
  | [], _ => rfl
  | c :: r, h => by
    simp only [noCommaClose, Bool.and_eq_true, Bool.not_eq_true'] at h
    obtain ⟨hc, hrest⟩ := h
    have ih := dropCommaClose_id r hrest
    simp [dropCommaClose, hc, ih]

theorem leadEsc_id (t e : Char) (l : List Char)
    (h : ∀ c, l.head? = some c → ¬ c = t) : leadEsc t e l = l := by
  cases l with
  | nil => rfl
  | cons c r => simp [leadEsc, h c rfl]

theorem cleanLiteral_facts (l : List Char) (h : cleanLiteral l = true) :
    (∀ c ∈ l, plainChar c = true) ∧ noTwoWs l = true ∧ noCommaClose l = true ∧
    (∀ c, l.head? = some c → c = lbrace) ∧ (∀ c, l.getLast? = some c → c = rbrace) := by
  simp only [cleanLiteral, Bool.and_eq_true, List.all_eq_true] at h
  obtain ⟨⟨⟨⟨hall, h2⟩, h3⟩, h4⟩, h5⟩ := h
  refine ⟨hall, h2, h3, ?_, ?_⟩
  · intro c hc
    clear h5 hall h2 h3
    cases l with
    | nil => simp at hc
    | cons a r =>
      simp only [List.head?_cons, Option.some.injEq] at hc
      subst hc
      exact of_decide_eq_true h4
  · intro c hc
    rw [hc] at h5
    exact of_decide_eq_true h5

theorem plainChar_facts (c : Char) (h : plainChar c = true) :
    isCtrlNarrow c = false ∧ ¬ c = '\n' ∧ ¬ c = '\t' ∧ ¬ c = '\r' ∧
    (isJsWs c = true → c = ' ') := by
  simp only [plainChar, Bool.and_eq_true] at h
  obtain ⟨⟨⟨⟨h1, h2⟩, h3⟩, h4⟩, h5⟩ := h
  refine ⟨by simpa using h1, by simpa using h2, by simpa using h3, by simpa using h4,
    fun hw => ?_⟩
  rw [hw] at h5
  simpa using h5

theorem cleanJsonResponse_id (s : String) (h : cleanLiteral s.data = true) :
    cleanJsonResponse s = s := by
  obtain ⟨hall, h2, _, h4, h5⟩ := cleanLiteral_facts s.data h
  have hhead : ∀ c, s.data.head? = some c → isJsWs c = false := by
    intro c hc
    have := h4 c hc
    subst this
    decide
  have hlast : ∀ c, s.data.getLast? = some c → isJsWs c = false := by
    intro c hc
    have := h5 c hc
    subst this
    decide
  have hnl : ∀ c ∈ s.data, ¬ c = '\n' := fun c hc => (plainChar_facts c (hall c hc)).2.1
  have htb : ∀ c ∈ s.data, ¬ c = '\t' := fun c hc => (plainChar_facts c (hall c hc)).2.2.1
  have hcr : ∀ c ∈ s.data, ¬ c = '\r' := fun c hc => (plainChar_facts c (hall c hc)).2.2.2.1
  have hws : ∀ c ∈ s.data, isJsWs c = true → c = ' ' :=
    fun c hc => (plainChar_facts c (hall c hc)).2.2.2.2
  have e0 : trimJs s.data = s.data := trimJs_id _ hhead hlast
  have e1 : stripFences s.data = s.data := stripFences_id _ h4
  have e2 : s.data.filter (fun c => !isCtrlNarrow c) = s.data := by
    rw [List.filter_eq_self]
    intro c hc
    simp [(plainChar_facts c (hall c hc)).1]
  have e3 : ∀ q, escBetweenQuotes '\n' 'n' q s.data = s.data := escBetweenQuotes_id _ _ _ hnl
  have e4 : ∀ q, escBetweenQuotes '\t' 't' q s.data = s.data := escBetweenQuotes_id _ _ _ htb
  have e5 : ∀ q, escBetweenQuotes '\r' 'r' q s.data = s.data := escBetweenQuotes_id _ _ _ hcr
  have e6 : chKeyToSpace '\n' s.data = s.data := chKeyToSpace_id _ _ hnl
  have e7 : chKeyToSpace '\r' s.data = s.data := chKeyToSpace_id _ _ hcr
  have e8 : chKeyToSpace '\t' s.data = s.data := chKeyToSpace_id _ _ htb
  have e9 : collapseWs s.data = s.data := collapseWs_id _ h2 hws
  simp only [cleanJsonResponse, e0, e1, e2, e3, e4, e5, e6, e7, e8, e9]
  cases hd : s.data with
  | nil =>
    rw [hd] at h
    simp [cleanLiteral] at h
  | cons a r =>
    have ha : a = lbrace := h4 a (by rw [hd]; rfl)
    show String.mk (if a = lbrace then a :: r else fallbackClean (a :: r)) = s
    rw [if_pos ha, ← hd]

theorem fixStage1_id (s : String) (h : cleanLiteral s.data = true) : fixStage1 s = s := by
  obtain ⟨hall, _, h3, h4, _⟩ := cleanLiteral_facts s.data h
  have hnl : ∀ c ∈ s.data, ¬ c = '\n' := fun c hc => (plainChar_facts c (hall c hc)).2.1
  have htb : ∀ c ∈ s.data, ¬ c = '\t' := fun c hc => (plainChar_facts c (hall c hc)).2.2.1
  have hcr : ∀ c ∈ s.data, ¬ c = '\r' := fun c hc => (plainChar_facts c (hall c hc)).2.2.2.1
  have e1 : escPairs '\n' 'n' s.data = s.data := escPairs_id _ _ _ hnl
  have e2 : escPairs '\t' 't' s.data = s.data := escPairs_id _ _ _ htb
  have e3 : escPairs '\r' 'r' s.data = s.data := escPairs_id _ _ _ hcr
  have e4 : dropCommaClose s.data = s.data := dropCommaClose_id _ h3
  have e5 : leadEsc '\n' 'n' s.data = s.data := by
    apply leadEsc_id
    intro c hc
    rw [h4 c hc]
    decide
  have e6 : leadEsc '\t' 't' s.data = s.data := by
    apply leadEsc_id
    intro c hc
    rw [h4 c hc]
    decide
  simp only [fixStage1, e1, e2, e3, e4, e5, e6]

/-- C9 counterexample: a well-formed object literal whose string field
holds a double space decodes to a different value — the whitespace
collapse of `cleanJsonResponse` rewrites data inside string literals, so
the decoder is not the identity on well-formed input. -/
theorem C9_counterexample :
    jsonParse c9bad = some (.obj [("content", .str "a  b")]) ∧
    agentDecode c9bad = .obj [("content", .str "a b")] ∧
    ¬ ("a  b" : String) = "a b" :=
  ⟨rfl, rfl, by decide⟩

/-- C9 (amended): the decoder is the identity on every well-formed object
literal on which the sanitization passes are no-ops — no control
characters, no raw newline/tab/CR, no whitespace other than single spaces,
no whitespace runs (in particular none inside string fields, the case the
counterexample rules out), no comma directly before a closing bracket, and
brace-delimited ends: for such input, decoding returns exactly the
strict-parse value. -/
theorem C9_decode_identity (s : String) (v : Json)
    (hc : cleanLiteral s.data = true) (hp : jsonParse s = some v) :
    agentDecode s = v := by
  unfold agentDecode safeJsonParse
  rw [cleanJsonResponse_id s hc, fixStage1_id s hc, hp]

/-- C9 witness: a concrete clean literal decodes to its strict-parse
value unchanged. -/
theorem C9_decode_identity_witness :
    cleanLiteral c9good.data = true ∧
    jsonParse c9good = some (.obj [("content", .str "hello world")]) ∧
    agentDecode c9good = .obj [("content", .str "hello world")] :=
  ⟨by decide, rfl, C9_decode_identity c9good _ (by decide) rfl⟩

theorem analyzePOST_cache_hit (uid tid : String) (env : AnalyzeEnv) (db : Db)
    (t : TenderRow) (row : AnalysisRow)
    (htid : ¬ tid = "") (ht : env.tender = some t) (hc : env.cached = some row) :
    analyzePOST uid tid false env db =
      (.ok t (cachePayload row) (jsOr row.relevant_companies (.arr []))
        (jsOr row.relevant_products (.arr [])) [] [] true row.created_at, []) := by
  simp [analyzePOST, htid, ht, hc]

theorem analyzePOST_fresh (uid tid : String) (force : Bool) (env : AnalyzeEnv) (db : Db)
    (t : TenderRow) (rel : RetrievalResult) (aOpt pOpt : Option String) (ai : Json)
    (htid : ¬ tid = "") (ht : env.tender = some t)
    (hcc : (if force then none else env.cached) = none)
    (hr : env.retrieval = .ok rel)
    (ha : env.analysisContent = .ok aOpt)
    (hpc : env.productContent = .ok pOpt)
    (hai : cleanAndParseJSON (contentOr aOpt) = some ai) :
    analyzePOST uid tid force env db =
      (let products := fetchProducts db (idsOf rel.products) (idsOf rel.companies)
       let combined := combinedAnalysis ai
         (prodMatchOf (if products.isEmpty then none else some pOpt))
       (.ok t combined (relevantData rel.companies) (relevantData rel.products)
          (fetchCompanies db uid (idsOf rel.companies)) products false env.now,
        Effect.retrievalCall :: Effect.genCall .analysisMain ::
          ((if products.isEmpty then [] else [Effect.genCall .productMatch]) ++
           [Effect.upsertAnalysis (freshUpsert uid tid combined
              (relevantData rel.companies) (relevantData rel.products) env.now)]))) := by
  cases hprod : fetchProducts db (idsOf rel.products) (idsOf rel.companies) with
  | nil => simp [analyzePOST, htid, ht, hcc, hr, ha, hai, hprod]
  | cons p ps => simp [analyzePOST, Except.map, htid, ht, hcc, hr, ha, hpc, hai, hprod]

/-- C6: cache read-through and bypass.  With `force=false` and a cached
row, the route returns the stored row's projection with `isFromCache=true`
and an empty effect trace — no retrieval, generation or write call is
made.  With the cache bypassed (`force=true`, or no cached row), the route
performs retrieval, the generation fan-out and the upsert keyed
(user, tender), and returns the fresh result with `isFromCache=false`. -/
theorem C6_cache_semantics (uid tid : String) (env : AnalyzeEnv) (db : Db) (t : TenderRow)
    (htid : ¬ tid = "") (ht : env.tender = some t) :
    (∀ row, env.cached = some row →
        analyzePOST uid tid false env db =
          (.ok t (cachePayload row) (jsOr row.relevant_companies (.arr []))
            (jsOr row.relevant_products (.arr [])) [] [] true row.created_at, [])) ∧
    (∀ force rel aOpt pOpt ai,
        (if force then none else env.cached) = none →
        env.retrieval = .ok rel →
        env.analysisContent = .ok aOpt →
        env.productContent = .ok pOpt →
        cleanAndParseJSON (contentOr aOpt) = some ai →
        analyzePOST uid tid force env db =
          (let products := fetchProducts db (idsOf rel.products) (idsOf rel.companies)
           let combined := combinedAnalysis ai
             (prodMatchOf (if products.isEmpty then none else some pOpt))
           (.ok t combined (relevantData rel.companies) (relevantData rel.products)
              (fetchCompanies db uid (idsOf rel.companies)) products false env.now,
            Effect.retrievalCall :: Effect.genCall .analysisMain ::
              ((if products.isEmpty then [] else [Effect.genCall .productMatch]) ++
               [Effect.upsertAnalysis (freshUpsert uid tid combined
                  (relevantData rel.companies) (relevantData rel.products) env.now)])))) :=
  ⟨fun row hc => analyzePOST_cache_hit uid tid env db t row htid ht hc,
   fun force rel aOpt pOpt ai hcc hr ha hpc hai =>
     analyzePOST_fresh uid tid force env db t rel aOpt pOpt ai htid ht hcc hr ha hpc hai⟩

/-- C6 witness: a concrete cache hit returns the stored row with an empty
effect trace, and a concrete forced request with a cached row still runs
retrieval, generation and the upsert. -/
theorem C6_cache_semantics_witness :
    envCache.cached = some analysisRow0 ∧
    analyzePOST "u" "t1" false envCache db0 =
      (.ok t0 (cachePayload analysisRow0) (jsOr analysisRow0.relevant_companies (.arr []))
        (jsOr analysisRow0.relevant_products (.arr [])) [] [] true analysisRow0.created_at,
       []) ∧
    envForce.cached = some analysisRow0 ∧
    analyzePOST "u" "t1" true envForce db0 =
      (let products := fetchProducts db0 (idsOf rel0.products) (idsOf rel0.companies)
       let combined := combinedAnalysis aiParsed0
         (prodMatchOf (if products.isEmpty then none else some (some "garbage!!")))
       (.ok t0 combined (relevantData rel0.companies) (relevantData rel0.products)
          (fetchCompanies db0 "u" (idsOf rel0.companies)) products false envForce.now,
        Effect.retrievalCall :: Effect.genCall .analysisMain ::
          ((if products.isEmpty then [] else [Effect.genCall .productMatch]) ++
           [Effect.upsertAnalysis (freshUpsert "u" "t1" combined
              (relevantData rel0.companies) (relevantData rel0.products) envForce.now)]))) :=
  ⟨rfl,
   (C6_cache_semantics "u" "t1" envCache db0 t0 (by decide) rfl).1 analysisRow0 rfl,
   rfl,
   (C6_cache_semantics "u" "t1" envForce db0 t0 (by decide) rfl).2 true rel0
     (some aiStr0) (some "garbage!!") aiParsed0 rfl rfl rfl rfl rfl⟩

/-- C1 counterexample: with the main analysis task returning unparseable
text while the product-matching task returns valid JSON, the whole request
fails with a 500 — the failing task aborts its sibling's result instead of
being replaced by a fallback fragment. -/
theorem C1_counterexample :
    analyzePOST "u" "t1" false envC1 db0 =
      (.fail 500, [.retrievalCall, .genCall .analysisMain, .genCall .productMatch]) ∧
    cleanAndParseJSON prodStr0 =
      some (.obj [("matchingProducts", .arr [.obj [("name", .str "X")]])]) :=
  ⟨rfl, rfl⟩

/-- C1 (amended): fallback substitution holds only for the guarded
decoders — unparseable product-matching output is replaced by the
deterministic `matchingProducts: []` fragment and the composite with the
main fragment is still returned; and the proposal route always produces
its composite once all seven backend calls return, whatever the contents,
since every agent decodes through the total `safeJsonParse`.  Unparseable
main-analysis output (see the counterexample) and rejected backend calls
abort the whole request. -/
theorem C1_fault_isolation (uid tid : String) :
    (∀ force env db t rel aOpt pOpt ai,
        ¬ tid = "" → env.tender = some t →
        (if force then none else env.cached) = none →
        env.retrieval = .ok rel → env.analysisContent = .ok aOpt →
        env.productContent = .ok pOpt →
        cleanAndParseJSON (contentOr aOpt) = some ai →
        cleanAndParseJSON (contentOr pOpt) = none →
        ¬ (fetchProducts db (idsOf rel.products) (idsOf rel.companies)).isEmpty = true →
        analyzePOST uid tid force env db =
          (let combined := combinedAnalysis ai (.obj [("matchingProducts", .arr [])])
           (.ok t combined (relevantData rel.companies) (relevantData rel.products)
              (fetchCompanies db uid (idsOf rel.companies))
              (fetchProducts db (idsOf rel.products) (idsOf rel.companies)) false env.now,
            [Effect.retrievalCall, Effect.genCall .analysisMain, Effect.genCall .productMatch,
             Effect.upsertAnalysis (freshUpsert uid tid combined
               (relevantData rel.companies) (relevantData rel.products) env.now)]))) ∧
    (∀ env t a i e m o r s w,
        ¬ tid = "" → env.tender = some t → env.analysisRow = some a →
        env.introC = .ok i → env.execC = .ok e → env.methC = .ok m → env.orgC = .ok o →
        env.riskC = .ok r → env.sustC = .ok s → env.whyC = .ok w →
        proposalPOST uid tid env =
          (.ok (buildProposal t.title
              (agentDecode (contentOr i)) (agentDecode (contentOr e))
              (agentDecode (contentOr m)) (agentDecode (contentOr o))
              (agentDecode (contentOr r)) (agentDecode (contentOr s))
              (agentDecode (contentOr w))) (!env.saveError),
           (List.range 7).map (fun k => Effect.genCall (.agent k)) ++
             [.upsertProposal uid tid])) := by
  constructor
  · intro force env db t rel aOpt pOpt ai htid ht hcc hr ha hpc hai hbad hne
    rw [analyzePOST_fresh uid tid force env db t rel aOpt pOpt ai htid ht hcc hr ha hpc hai]
    have hfalse : (fetchProducts db (idsOf rel.products) (idsOf rel.companies)).isEmpty = false := by
      cases h' : (fetchProducts db (idsOf rel.products) (idsOf rel.companies)).isEmpty
      · rfl
      · exact absurd h' hne
    simp [hfalse, prodMatchOf, hbad]
  · intro env t a i e m o r s w htid ht ha h1 h2 h3 h4 h5 h6 h7
    simp [proposalPOST, htid, ht, ha, h1, h2, h3, h4, h5, h6, h7]

/-- C1 witness: a concrete request whose product-matching output is
garbage still succeeds with a fallback fragment, and a concrete proposal
request with mixed garbage/null/valid agent outputs succeeds. -/
theorem C1_fault_isolation_witness :
    cleanAndParseJSON (contentOr (some "garbage!!")) = none ∧
    analyzePOST "u" "t1" false envC1w db0 =
      (let combined := combinedAnalysis aiParsed0 (.obj [("matchingProducts", .arr [])])
       (.ok t0 combined (relevantData rel0.companies) (relevantData rel0.products)
          (fetchCompanies db0 "u" (idsOf rel0.companies))
          (fetchProducts db0 (idsOf rel0.products) (idsOf rel0.companies)) false envC1w.now,
        [Effect.retrievalCall, Effect.genCall .analysisMain, Effect.genCall .productMatch,
         Effect.upsertAnalysis (freshUpsert "u" "t1" combined
           (relevantData rel0.companies) (relevantData rel0.products) envC1w.now)])) ∧
    proposalPOST "u" "t1" propEnv0 =
      (.ok (buildProposal t0.title
          (agentDecode (contentOr (some "intro garbage"))) (agentDecode (contentOr none))
          (agentDecode (contentOr (some ""))) (agentDecode (contentOr (some "\x7b\"content\": \"ok\", \"team\": []\x7d")))
          (agentDecode (contentOr (some "also not json"))) (agentDecode (contentOr (some "x")))
          (agentDecode (contentOr (some "y")))) (!propEnv0.saveError),
       (List.range 7).map (fun k => Effect.genCall (.agent k)) ++
         [.upsertProposal "u" "t1"]) :=
  ⟨rfl,
   (C1_fault_isolation "u" "t1").1 false envC1w db0 t0 rel0 (some aiStr0) (some "garbage!!")
     aiParsed0 (by decide) rfl rfl rfl rfl rfl rfl rfl (by decide),
   (C1_fault_isolation "u" "t1").2 propEnv0 t0 analysisRow0
     (some "intro garbage") none (some "")
     (some "\x7b\"content\": \"ok\", \"team\": []\x7d") (some "also not json")
     (some "x") (some "y")
     (by decide) rfl rfl rfl rfl rfl rfl rfl rfl rfl⟩

/-- C8 counterexample: in the NvI route, the freshly computed question set
exists (the generation decoded successfully) but an insert failure returns
a 500 error instead of the in-memory result — the claim does not hold for
this persistence write. -/
theorem C8_counterexample :
    nviPOST "u" "t1" nviEnvC8 [] =
      (.fail 500, [], [.genCall .nviGen, .deleteNvi "u" "t1"]) ∧
    generateNvIQuestions nviEnvC8.genContent = .ok [qDecoded0] :=
  ⟨rfl, rfl⟩

/-- C8 (amended): the analysis upsert failure is only logged — the analyze
route's response and effect trace are entirely independent of the write
outcome; the proposal route likewise returns the fresh composite with
success status when its upsert fails (only the echoed saved row is null);
but the NvI route returns a 500 error on an insert failure even though the
fresh question set was computed. -/
theorem C8_persistence_failure_semantics :
    (∀ uid tid force env db b,
        analyzePOST uid tid force { env with saveError := b } db
          = analyzePOST uid tid force env db) ∧
    (∀ uid tid env t a i e m o r s w,
        ¬ tid = "" → env.tender = some t → env.analysisRow = some a →
        env.introC = .ok i → env.execC = .ok e → env.methC = .ok m → env.orgC = .ok o →
        env.riskC = .ok r → env.sustC = .ok s → env.whyC = .ok w →
        proposalPOST uid tid env =
          (.ok (buildProposal t.title
              (agentDecode (contentOr i)) (agentDecode (contentOr e))
              (agentDecode (contentOr m)) (agentDecode (contentOr o))
              (agentDecode (contentOr r)) (agentDecode (contentOr s))
              (agentDecode (contentOr w))) (!env.saveError),
           (List.range 7).map (fun k => Effect.genCall (.agent k)) ++
             [.upsertProposal uid tid])) ∧
    (∀ uid tid env st (qs : List NvIQuestion) t a,
        ¬ tid = "" → env.tender = some t → env.analysisRow = some a →
        generateNvIQuestions env.genContent = .ok qs → env.insertError = true →
        nviPOST uid tid env st =
          (.fail 500, nviDeleteFor uid tid st, [.genCall .nviGen, .deleteNvi uid tid])) := by
  refine ⟨?_, ?_, ?_⟩
  · intro uid tid force env db b
    cases env
    rfl
  · intro uid tid env t a i e m o r s w htid ht ha h1 h2 h3 h4 h5 h6 h7
    simp [proposalPOST, htid, ht, ha, h1, h2, h3, h4, h5, h6, h7]
  · intro uid tid env st qs t a htid ht ha hg hi
    simp [nviPOST, htid, ht, ha, hg, hi]

/-- C8 witness: a concrete proposal request whose upsert fails still
returns its composite with success status, and a concrete NvI request
whose insert fails returns a 500. -/
theorem C8_persistence_failure_witness :
    propEnv0.saveError = true ∧
    proposalPOST "u" "t1" propEnv0 =
      (.ok (buildProposal t0.title
          (agentDecode (contentOr (some "intro garbage"))) (agentDecode (contentOr none))
          (agentDecode (contentOr (some ""))) (agentDecode (contentOr (some "\x7b\"content\": \"ok\", \"team\": []\x7d")))
          (agentDecode (contentOr (some "also not json"))) (agentDecode (contentOr (some "x")))
          (agentDecode (contentOr (some "y")))) (!propEnv0.saveError),
       (List.range 7).map (fun k => Effect.genCall (.agent k)) ++
         [.upsertProposal "u" "t1"]) ∧
    nviPOST "u" "t1" nviEnvC8 [] =
      (.fail 500, nviDeleteFor "u" "t1" [], [.genCall .nviGen, .deleteNvi "u" "t1"]) :=
  ⟨rfl,
   C8_persistence_failure_semantics.2.1 "u" "t1" propEnv0 t0 analysisRow0
     (some "intro garbage") none (some "")
     (some "\x7b\"content\": \"ok\", \"team\": []\x7d") (some "also not json")
     (some "x") (some "y")
     (by decide) rfl rfl rfl rfl rfl rfl rfl rfl rfl,
   C8_persistence_failure_semantics.2.2 "u" "t1" nviEnvC8 [] [qDecoded0] t0 analysisRow0
     (by decide) rfl rfl rfl rfl⟩

/-- C10: the product-detail fetch filters by `company_id` equal to the
first matched company id (or the empty string when no company matched), so
whenever no stored product carries that company id — in particular when
retrieval returned product matches but no company matches, or products
owned by a company other than the first — the detail list is empty, and
every successful response carries `matchedProducts = []`. -/
theorem C10_product_details_first_company (uid tid : String) (force : Bool)
    (env : AnalyzeEnv) (db : Db) (rel : RetrievalResult)
    (hr : env.retrieval = .ok rel)
    (hown : ∀ r ∈ db.products, r.id ∈ idsOf rel.products →
        ¬ r.company_id = (idsOf rel.companies).headD "") :
    fetchProducts db (idsOf rel.products) (idsOf rel.companies) = [] ∧
    (∀ mp, respMatchedProducts (analyzePOST uid tid force env db).1 = some mp → mp = []) := by
  have hfp : fetchProducts db (idsOf rel.products) (idsOf rel.companies) = [] := by
    unfold fetchProducts
    split
    · rfl
    · rw [List.filter_eq_nil_iff]
      intro r hrr hcond
      rw [Bool.and_eq_true] at hcond
      obtain ⟨hmem, hcomp⟩ := hcond
      exact hown r hrr (by simpa using hmem) (by simpa using hcomp)
  refine ⟨hfp, ?_⟩
  intro mp hmp
  by_cases htid : tid = ""
  · simp [analyzePOST, htid, respMatchedProducts] at hmp
  · cases ht : env.tender with
    | none => simp [analyzePOST, htid, ht, respMatchedProducts] at hmp
    | some t =>
      cases hcc : (if force then none else env.cached) with
      | some row =>
        have hf : force = false := by
          cases force
          · rfl
          · simp at hcc
        subst hf
        have hcached : env.cached = some row := by simpa using hcc
        rw [analyzePOST_cache_hit uid tid env db t row htid ht hcached] at hmp
        simp [respMatchedProducts] at hmp
        exact hmp
      | none =>
        cases ha : env.analysisContent with
        | error e => simp [analyzePOST, htid, ht, hcc, hr, ha, respMatchedProducts] at hmp
        | ok aOpt =>
          cases hparse : cleanAndParseJSON (contentOr aOpt) with
          | none =>
            simp [analyzePOST, htid, ht, hcc, hr, ha, hfp, hparse, respMatchedProducts] at hmp
          | some ai =>
            simp [analyzePOST, htid, ht, hcc, hr, ha, hfp, hparse, respMatchedProducts] at hmp
            exact hmp

/-- C10 witness: a concrete request whose retrieval returns a product
match but no company match fetches no product details, and its successful
response carries an empty matchedProducts list. -/
theorem C10_product_details_first_company_witness :
    fetchProducts db0 (idsOf rel0c.products) (idsOf rel0c.companies) = [] ∧
    respMatchedProducts (analyzePOST "u" "t1" false envC10 db0).1 = some [] :=
  ⟨(C10_product_details_first_company "u" "t1" false envC10 db0 rel0c rfl (by decide)).1,
   rfl⟩

/-- C5 witness: a concrete total of 7 is classified HIGH. -/
theorem C5_priority_tier_boundaries_witness :
    getPriorityLabel 7 = "HIGH" ∧ (6 : Int) ≤ 7 :=
  ⟨(C5_priority_tier_boundaries 7).1.mpr (by decide), by decide⟩

/-- C4 witness: concrete verbatim persistence and a concrete row passing
the schema CHECKs. -/
theorem C4_factors_stored_verbatim_witness :
    ((questionsToSave "u" "t1" [q0]).map
        (fun r => (r.ko_risk, r.meat_impact, r.euro_impact, r.time_impact,
                   r.evidence_risk, r.priority_score))
      = [q0].map (fun q => (q.koRisk, q.meatImpact, q.euroImpact, q.timeImpact,
                            q.evidenceRisk, q.priorityScore))) ∧
    nviRowCheck row0 = true :=
  ⟨(C4_factors_stored_verbatim "u" "t1" [q0] row0).1,
   (C4_factors_stored_verbatim "u" "t1" [q0] row0).2.mpr (by decide)⟩

/-- C3 witness: both partitions healthy, one with a null match list, merge
into the pair of match lists with the null replaced by an empty list. -/
theorem C3_retrieval_failure_semantics_witness :
    findRelevantCapabilities
        { companiesQ := .ok { matchList := none },
          productsQ := .ok { matchList := some [{ id := some "p1" }] } } =
      .ok { companies := [], products := [{ id := some "p1" }] } :=
  C3_retrieval_failure_semantics.1 { matchList := none } { matchList := some [{ id := some "p1" }] }

/-- C2 witness: the decoder contrast at concrete inputs. -/
theorem C2_decoder_totality_witness :
    cleanAndParseJSON "hello" = none ∧ safeJsonParse "[]" = .arr [] :=
  ⟨C2_decoder_totality.2, rfl⟩
